import Mathlib

/-!
Verification of the coolpack detection-and-classification pipeline.

This file is a shallow embedding, in Lean 4, of the Go sources of
coollabsio/coolpack: the filesystem evidence view (`pkg/app`), the
package.json manifest model, the package-manager / runtime-version /
framework resolvers (`pkg/providers/node`), the tree-sitter based
property resolver (`config_parser.go`), the native-dependency mapper,
the plan synthesis (`node.go`, `pkg/app/plan.go`) and the orchestrator
(`pkg/detector`).  Go strings are modelled as Lean `String`, Go byte
slices of UTF-8 text as `String`, Go maps used only for membership and
lookup as association lists, and Go `(T, error)` returns as
`Option`/`Except`.  The external tree-sitter parsers and
`encoding/json` manifest decoding are modelled as function parameters
(the code under analysis never inspects them beyond their results).
All definitions are executable and structurally recursive, so concrete
runs evaluate by `decide`/`rfl`.
-/

/-! ## Go string primitives

Character-list implementations of the Go standard-library string
operations the sources use (`strings.TrimSpace`, `strings.TrimPrefix`,
`strings.SplitN`, `strings.Split`, `strings.Fields`,
`strings.HasPrefix`, `strings.ToLower`).  They are written by
structural recursion over `String.data` so that the kernel can
evaluate them. -/

/-- Whitespace as recognised by Go's `unicode.IsSpace` (the sources
only ever feed ASCII text, so the ASCII cases suffice). -/
def isSpaceChar (c : Char) : Bool :=
  c = ' ' || c = '\t' || c = '\n' || c = '\x0b' || c = '\x0c' || c = '\r'

/-- Go `strings.TrimSpace`. -/
def goTrimSpace (s : String) : String :=
  ⟨((s.data.dropWhile isSpaceChar).reverse.dropWhile isSpaceChar).reverse⟩

/-- Go `strings.HasPrefix`. -/
def goHasPre (pre s : String) : Bool :=
  pre.data.isPrefixOf s.data

/-- Go `strings.TrimPrefix`: drop `pre` from the front of `s` when present. -/
def goTrimPre (pre s : String) : String :=
  if goHasPre pre s then ⟨s.data.drop pre.data.length⟩ else s

/-- ASCII lower-casing of one character (Go `strings.ToLower` on the
ASCII inputs the sources handle). -/
def lowerChar (c : Char) : Char :=
  if 65 ≤ c.toNat ∧ c.toNat ≤ 90 then Char.ofNat (c.toNat + 32) else c

/-- Go `strings.ToLower` (ASCII). -/
def goToLower (s : String) : String := ⟨s.data.map lowerChar⟩

/-- Split a character list at every occurrence of `sep`
(Go `strings.Split(s, sep)` for a one-character separator). -/
def splitCharList (sep : Char) : List Char → List (List Char)
  | [] => [[]]
  | c :: rest =>
    match splitCharList sep rest with
    | [] => [[]]
    | grp :: grps => if c = sep then [] :: grp :: grps else (c :: grp) :: grps

/-- Go `strings.Split(s, sep)` for a one-character separator string. -/
def goSplitChar (sep : Char) (s : String) : List String :=
  (splitCharList sep s.data).map String.mk

/-- Go `strings.Fields`: split around runs of whitespace, dropping
empty tokens. -/
def goFields (s : String) : List String :=
  ((splitCharList ' ' (s.data.map (fun c => if isSpaceChar c then ' ' else c))).map
    String.mk).filter (fun t => t ≠ "")

/-- Go `strings.SplitN(s, "@", 2)`: the part before the first `@` and,
when an `@` occurs, the remainder after it. -/
def splitFirstAt (sep : Char) (s : String) : String × Option String :=
  let before := s.data.takeWhile (fun c => c ≠ sep)
  let rest := s.data.drop before.length
  match rest with
  | [] => (⟨before⟩, none)
  | _ :: after => (⟨before⟩, some ⟨after⟩)

/-! ## Filesystem evidence view (`pkg/app/context.go`)

`Context` holds the project path and an environment overlay; `HasFile`
stats a file under the root, `ReadFile` reads it.  The embedding
replaces the operating system by an explicit directory snapshot: the
association list `Files` maps a relative file name to its content, so
`HasFile` is key membership and `ReadFile` is lookup (a stat that
succeeds and a read that fails are not distinguished; the sources
treat both failures identically).  Path *resolution* — `filepath.Join`
against the root, the subject of the traversal analysis — is modelled
separately below over absolute paths. -/

structure Context where
  Files : List (String × String)
  Env : List (String × String)

/-- `Context.ReadFile`: content of the named file, if present. -/
def Context.ReadFile (ctx : Context) (name : String) : Option String :=
  (ctx.Files.find? (fun p => p.1 = name)).map (fun p => p.2)

/-- `Context.HasFile`: existence check. -/
def Context.HasFile (ctx : Context) (name : String) : Bool :=
  (ctx.ReadFile name).isSome

/-- `ctx.Env[k]`: Go map indexing with the zero value `""` for a
missing key. -/
def Context.envGet (ctx : Context) (k : String) : String :=
  ((ctx.Env.find? (fun p => p.1 = k)).map (fun p => p.2)).getD ""

/-! ## Path resolution (`filepath.Join` / `filepath.Clean`)

`Context.HasFile`/`ReadFile`/`ListFiles` resolve a relative name with
`filepath.Join(ctx.Path, name)`, and `Join` runs `Clean` on the
concatenation.  `goClean` below is Go's `filepath.Clean` for Unix
paths: elements are processed left to right, `.` and empty elements
are dropped, `..` pops the previous element (and is itself dropped at
the root of a rooted path, or kept at the front of a relative path). -/

/-- One step of Go `filepath.Clean`'s element processing: push a
normal element, drop `.` and empty, resolve `..` against the stack
(the stack is kept in reverse order). -/
def cleanStep (rooted : Bool) (stack : List String) (comp : String) : List String :=
  if comp = "" ∨ comp = "." then stack
  else if comp = ".." then
    match stack with
    | top :: rest => if top = ".." then comp :: top :: rest else rest
    | [] => if rooted then [] else [".."]
  else comp :: stack

/-- Join path elements with `/`. -/
def joinSlash : List String → String
  | [] => ""
  | [p] => p
  | p :: rest => p ++ "/" ++ joinSlash rest

/-- Go `filepath.Clean` for Unix paths. -/
def goClean (path : String) : String :=
  if path = "" then "."
  else
    let rooted := path.data.head? = some '/'
    let comps := goSplitChar '/' path
    let parts := (comps.foldl (cleanStep rooted) []).reverse
    if rooted then "/" ++ joinSlash parts
    else if parts = [] then "." else joinSlash parts

/-- Go `filepath.Join(a, b)` (two non-degenerate elements; empty
elements are skipped before cleaning, as in the source). -/
def goJoin (a b : String) : String :=
  if a = "" ∧ b = "" then ""
  else if a = "" then goClean b
  else if b = "" then goClean a
  else goClean (a ++ "/" ++ b)

/-- Whether an absolute path lies within (or is) the given root. -/
def withinRoot (root p : String) : Bool :=
  p = root || goHasPre (root ++ "/") p

/-- `Context.HasFile` with the operating-system layer made explicit:
the host filesystem is the list `fs` of existing absolute paths and
the stat hits `filepath.Join(root, name)` — exactly what
`pkg/app/context.go` computes, with no containment check. -/
def hasFileResolved (fs : List String) (root name : String) : Bool :=
  fs.contains (goJoin root name)

/-! ## Manifest (`pkg/providers/node/package_json.go`)

`PackageJSON` mirrors the Go struct.  The Go maps `Scripts`,
`Dependencies` and `DevDependencies` are used only through membership
and lookup, so they are association lists here; `Type` is renamed
`ModuleType` (`Type` is a Lean keyword).  `Workspaces` is flattened to
its `Packages` list, exactly the information the custom unmarshaller
retains. -/

structure Engines where
  Node : String := ""
  NPM : String := ""
  Yarn : String := ""
  PNPM : String := ""
  Bun : String := ""
  deriving DecidableEq, Repr

structure PackageJSON where
  Name : String := ""
  Version : String := ""
  Main : String := ""
  ModuleType : String := ""
  Scripts : List (String × String) := []
  Dependencies : List (String × String) := []
  DevDependencies : List (String × String) := []
  Engines : Engines := {}
  PackageManager : String := ""
  Workspaces : List String := []
  CacheDirectories : List String := []
  deriving DecidableEq, Repr

/-- `PackageJSON.HasScript`. -/
def PackageJSON.HasScript (p : PackageJSON) (name : String) : Bool :=
  (p.Scripts.find? (fun q => q.1 = name)).isSome

/-- `PackageJSON.GetScript`. -/
def PackageJSON.GetScript (p : PackageJSON) (name : String) : String :=
  ((p.Scripts.find? (fun q => q.1 = name)).map (fun q => q.2)).getD ""

/-- `PackageJSON.HasDependency`: membership in either dependency map. -/
def PackageJSON.HasDependency (p : PackageJSON) (name : String) : Bool :=
  (p.Dependencies.find? (fun q => q.1 = name)).isSome ||
  (p.DevDependencies.find? (fun q => q.1 = name)).isSome

/-- `PackageJSON.GetDependencyVersion`: `dependencies` first, then
`devDependencies`, else `""`. -/
def PackageJSON.GetDependencyVersion (p : PackageJSON) (name : String) : String :=
  match p.Dependencies.find? (fun q => q.1 = name) with
  | some q => q.2
  | none =>
    match p.DevDependencies.find? (fun q => q.1 = name) with
    | some q => q.2
    | none => ""

/-- The body of `PackageJSON.GetPackageManagerInfo` on the raw field
value: split on the first `@`, then strip a `+hash` suffix from the
version part. -/
def parsePMField (s : String) : String × String :=
  if s = "" then ("", "")
  else
    match splitFirstAt '@' s with
    | (name, none) => (name, "")
    | (name, some rest) => (name, ⟨rest.data.takeWhile (fun c => c ≠ '+')⟩)

/-- `PackageJSON.GetPackageManagerInfo`. -/
def PackageJSON.GetPackageManagerInfo (p : PackageJSON) : String × String :=
  parsePMField p.PackageManager

/-- `PackageJSON.IsMonorepo`. -/
def PackageJSON.IsMonorepo (p : PackageJSON) : Bool :=
  p.Workspaces.length > 0

/-! ## Package-manager resolver (`pkg/providers/node/package_manager.go`)

The Go `PackageManager` type is a string; the five constants are kept
as string definitions. -/

def PackageManagerNPM : String := "npm"
def PackageManagerYarn1 : String := "yarn"
def PackageManagerYarnBerry : String := "yarnberry"
def PackageManagerPNPM : String := "pnpm"
def PackageManagerBun : String := "bun"

structure PackageManagerInfo where
  Name : String
  Version : String
  deriving DecidableEq, Repr

/-- `isYarnBerry`: a non-empty version whose first byte is a digit
between `'2'` and `'9'`. -/
def isYarnBerry (version : String) : Bool :=
  if version = "" then false
  else
    match version.data with
    | c :: _ => '2' ≤ c && c ≤ '9'
    | [] => false

/-- `DetectPackageManager`: strict priority
packageManager field → lock files → engines → npm default,
transcribed branch for branch from the source. -/
def DetectPackageManager (ctx : Context) (pkg : PackageJSON) : PackageManagerInfo :=
  let (pmName, pmVersion) := pkg.GetPackageManagerInfo
  if pmName = "pnpm" then ⟨PackageManagerPNPM, pmVersion⟩
  else if pmName = "yarn" then
    ⟨if isYarnBerry pmVersion then PackageManagerYarnBerry else PackageManagerYarn1, pmVersion⟩
  else if pmName = "bun" then ⟨PackageManagerBun, pmVersion⟩
  else if pmName = "npm" then ⟨PackageManagerNPM, pmVersion⟩
  else if ctx.HasFile "pnpm-lock.yaml" then ⟨PackageManagerPNPM, ""⟩
  else if ctx.HasFile "bun.lockb" || ctx.HasFile "bun.lock" then ⟨PackageManagerBun, ""⟩
  else if ctx.HasFile ".yarnrc.yml" || ctx.HasFile ".yarnrc.yaml" then
    ⟨PackageManagerYarnBerry, ""⟩
  else if ctx.HasFile "yarn.lock" then ⟨PackageManagerYarn1, ""⟩
  else if ctx.HasFile "package-lock.json" then ⟨PackageManagerNPM, ""⟩
  else if pkg.Engines.PNPM ≠ "" then ⟨PackageManagerPNPM, ""⟩
  else if pkg.Engines.Bun ≠ "" then ⟨PackageManagerBun, ""⟩
  else if pkg.Engines.Yarn ≠ "" then ⟨PackageManagerYarn1, ""⟩
  else ⟨PackageManagerNPM, ""⟩

/-- `PackageManagerInfo.GetInstallCommand`. -/
def PackageManagerInfo.GetInstallCommand (pm : PackageManagerInfo) : String :=
  if pm.Name = PackageManagerPNPM then "pnpm install --frozen-lockfile"
  else if pm.Name = PackageManagerYarnBerry then "yarn install --immutable"
  else if pm.Name = PackageManagerYarn1 then "yarn install --frozen-lockfile"
  else if pm.Name = PackageManagerBun then "bun install --frozen-lockfile"
  else "npm ci"

/-- `PackageManagerInfo.GetRunCommand`. -/
def PackageManagerInfo.GetRunCommand (pm : PackageManagerInfo) : String :=
  if pm.Name = PackageManagerPNPM then "pnpm"
  else if pm.Name = PackageManagerYarnBerry ∨ pm.Name = PackageManagerYarn1 then "yarn"
  else if pm.Name = PackageManagerBun then "bun run"
  else "npm run"

/-- `PackageManagerInfo.GetLockFile`. -/
def PackageManagerInfo.GetLockFile (pm : PackageManagerInfo) : String :=
  if pm.Name = PackageManagerPNPM then "pnpm-lock.yaml"
  else if pm.Name = PackageManagerYarnBerry ∨ pm.Name = PackageManagerYarn1 then "yarn.lock"
  else if pm.Name = PackageManagerBun then "bun.lockb"
  else "package-lock.json"

/-! ## Runtime version resolver (`pkg/providers/node/version.go`) -/

def DefaultNodeVersion : String := "24"

/-- `normalizeVersion`: trim whitespace, strip a leading `v`. -/
def normalizeVersion (v : String) : String :=
  goTrimPre "v" (goTrimSpace v)

/-- `parseVersionFile` (`.nvmrc`, `.node-version`): trim, strip a
leading `v`; an `lts…` value (case-insensitive) collapses to the
default; otherwise the value itself, or `""` when empty. -/
def parseVersionFile (content : String) : String :=
  let v := goTrimPre "v" (goTrimSpace content)
  if goHasPre "lts" (goToLower v) then DefaultNodeVersion
  else if v ≠ "" then v
  else ""

/-- First maximal run of digits in a character list, if any — the text
of capture group 1 of `(\d+)(?:\.(\d+))?(?:\.(\d+))?` at the leftmost
match. -/
def firstDigitRun : List Char → Option String
  | [] => none
  | c :: rest =>
    if c.isDigit then some ⟨c :: rest.takeWhile Char.isDigit⟩
    else firstDigitRun rest

/-- `parseEngineVersion`: major component of the first number group in
the `engines.node` constraint. -/
def parseEngineVersion (constraint : String) : String :=
  let c := goTrimSpace constraint
  match firstDigitRun c.data with
  | some major => major
  | none => ""

/-- One line of `.tool-versions`: after trimming, a match when the
first whitespace field equals the tool name and a second field exists. -/
def toolVersionsLine (tool : String) (line : String) : Option String :=
  match goFields (goTrimSpace line) with
  | t :: v :: _ => if t = tool then some (normalizeVersion v) else none
  | _ => none

/-- Line loop of `parseToolVersions`: the first matching line wins. -/
def toolVersionsScan (tool : String) : List String → String
  | [] => ""
  | line :: rest =>
    match toolVersionsLine tool line with
    | some v => v
    | none => toolVersionsScan tool rest

/-- `parseToolVersions` (asdf format): first matching line wins. -/
def parseToolVersions (content tool : String) : String :=
  toolVersionsScan tool (goSplitChar '\n' content)

/-- Tail of `(?:node|nodejs)\s*=\s*"([^"]+)"` after the key name:
optional whitespace, `=`, optional whitespace, then a non-empty quoted
capture. -/
def miseMatchAfterKey (cs : List Char) : Option String :=
  match cs.dropWhile isSpaceChar with
  | '=' :: cs2 =>
    match cs2.dropWhile isSpaceChar with
    | '"' :: cs4 =>
      let v := cs4.takeWhile (fun c => c ≠ '"')
      if v = [] then none
      else
        match cs4.drop v.length with
        | '"' :: _ => some ⟨v⟩
        | _ => none
    | _ => none
  | _ => none

/-- Leftmost match of `(?:node|nodejs)\s*=\s*"([^"]+)"`, alternatives
tried in order at each position as Go's regexp does. -/
def miseScan : List Char → Option String
  | [] => none
  | c :: rest =>
    (if ("node".data).isPrefixOf (c :: rest) then
        miseMatchAfterKey ((c :: rest).drop 4)
      else none).orElse fun _ =>
    (if ("nodejs".data).isPrefixOf (c :: rest) then
        miseMatchAfterKey ((c :: rest).drop 6)
      else none).orElse fun _ =>
    miseScan rest

/-- `parseMiseToml`: regex-style extraction of a quoted `node`/`nodejs`
assignment, normalised. -/
def parseMiseToml (content : String) : String :=
  match miseScan content.data with
  | some v => normalizeVersion v
  | none => ""

/-- `DetectNodeVersion`: the eight-step priority cascade of the
source, first non-empty result wins (`pkg` is `none` when the Go
caller passes a nil manifest). -/
def DetectNodeVersion (ctx : Context) (pkg : Option PackageJSON) : String :=
  let e1 := ctx.envGet "COOLPACK_NODE_VERSION"
  if e1 ≠ "" then normalizeVersion e1
  else
    let e2 := ctx.envGet "NODE_VERSION"
    if e2 ≠ "" then normalizeVersion e2
    else
      let v3 :=
        match pkg with
        | some p => if p.Engines.Node ≠ "" then parseEngineVersion p.Engines.Node else ""
        | none => ""
      if v3 ≠ "" then v3
      else
        let v4 := match ctx.ReadFile ".nvmrc" with
          | some data => parseVersionFile data
          | none => ""
        if v4 ≠ "" then v4
        else
          let v5 := match ctx.ReadFile ".node-version" with
            | some data => parseVersionFile data
            | none => ""
          if v5 ≠ "" then v5
          else
            let v6 := match ctx.ReadFile ".tool-versions" with
              | some data => parseToolVersions data "nodejs"
              | none => ""
            if v6 ≠ "" then v6
            else
              let v7 := match ctx.ReadFile "mise.toml" with
                | some data => parseMiseToml data
                | none => ""
              if v7 ≠ "" then v7
              else DefaultNodeVersion

/-! ## Syntax-tree property resolver (`pkg/providers/node/config_parser.go`)

Tree-sitter produces a read-only concrete syntax tree; the Go code
consumes it through `Node.Type()`, `Node.ChildByFieldName`,
`Node.Child(i)`/`ChildCount`, `Node.NextSibling()` and the byte range
used by `getNodeText`.  `STNode` captures exactly that interface: a
node type, the slice of source text the node spans, and the ordered
child list, each child optionally carrying its field name.  The
parsers themselves (`ParseTS`/`ParseJS`) are external library calls
and appear as function parameters `String → Option STNode` wherever
the sources invoke them. -/

mutual
inductive STNode where
  | mk (ty : String) (txt : String) (children : STList)
  deriving DecidableEq, Repr
inductive STList where
  | nil
  | cons (field : Option String) (n : STNode) (rest : STList)
  deriving DecidableEq, Repr
end

/-- `Node.Type()`. -/
def STNode.ty : STNode → String
  | .mk t _ _ => t

/-- `Node.ChildByFieldName`. -/
def STList.byField (f : String) : STList → Option STNode
  | .nil => none
  | .cons g n rest => if g = some f then some n else STList.byField f rest

/-- `getNodeText`: the slice of the source spanned by the node
(stored in the node here; the byte-range arithmetic of the source is
the identity on that slice). -/
def getNodeText : STNode → String
  | .mk _ t _ => t

/-- `trimQuotes`: strip one matching pair of `"` or `'` quotes. -/
def trimQuotes (s : String) : String :=
  match s.data with
  | c :: rest =>
    match rest.reverse with
    | d :: mid =>
      if (c = '"' ∧ d = '"') ∨ (c = '\'' ∧ d = '\'') then ⟨mid.reverse⟩ else s
    | [] => s
  | [] => s

/-- A `pair`/`property_assignment` node whose key (quote-stripped)
equals `name` resolves to its value node; used by
`findPropertyObjectNode`. -/
def pairValueFor (name : String) (n : STNode) : Option STNode :=
  match n with
  | .mk ty _ children =>
    if ty = "pair" ∨ ty = "property_assignment" then
      match children.byField "key", children.byField "value" with
      | some k, some v => if trimQuotes (getNodeText k) = name then some v else none
      | _, _ => none
    else none

mutual
/-- `findPropertyObjectNode`: pre-order search for a matching
key/value pair, returning the *value node*. -/
def findPropertyObjectNode (name : String) (n : STNode) : Option STNode :=
  match pairValueFor name n with
  | some v => some v
  | none =>
    match n with
    | .mk _ _ children => fpoChildren name children
/-- Child loop of `findPropertyObjectNode`, first hit wins. -/
def fpoChildren (name : String) : STList → Option STNode
  | .nil => none
  | .cons _ c rest =>
    match findPropertyObjectNode name c with
    | some r => some r
    | none => fpoChildren name rest
end

/-- `FindNestedPropertyValue`: resolve the first path segment to its
value node; for a singleton path return that node's quote-stripped
text, otherwise recurse into the value node with the remaining path.
`""` is the source's "no value" result. -/
def FindNestedPropertyValue (n : STNode) : List String → String
  | [] => ""
  | [p] =>
    match findPropertyObjectNode p n with
    | some v => trimQuotes (getNodeText v)
    | none => ""
  | p :: ps =>
    match findPropertyObjectNode p n with
    | some v => FindNestedPropertyValue v ps
    | none => ""

mutual
/-- `findPropertyInNode`: the scalar search of `FindPropertyValue` —
a matching pair yields its value's quote-stripped text; a matching
bare identifier yields its next sibling's text; otherwise the children
are scanned in order and the first non-empty result wins (`sib` is the
node's next sibling, `none` at the root). -/
def findPropertyInNode (name : String) (n : STNode) (sib : Option STNode) : String :=
  match n with
  | .mk ty txt children =>
    let fromPair :=
      if ty = "pair" ∨ ty = "property_assignment" then
        match children.byField "key", children.byField "value" with
        | some k, some v =>
          if trimQuotes (getNodeText k) = name then trimQuotes (getNodeText v) else ""
        | _, _ => ""
      else ""
    if fromPair ≠ "" then fromPair
    else
      let fromShorthand :=
        if (ty = "property_identifier" ∨ ty = "identifier") ∧ txt = name then
          match sib with
          | some s => trimQuotes (getNodeText s)
          | none => ""
        else ""
      if fromShorthand ≠ "" then fromShorthand
      else fpiChildren name children
/-- Child loop of `findPropertyInNode`; each child sees the following
child as its `NextSibling`. -/
def fpiChildren (name : String) : STList → String
  | .nil => ""
  | .cons _ c rest =>
    let r := findPropertyInNode name c
      (match rest with | .nil => none | .cons _ d _ => some d)
    if r ≠ "" then r else fpiChildren name rest
end

/-- `FindPropertyValue` (non-nil root; the root has no next sibling). -/
def FindPropertyValue (root : STNode) (name : String) : String :=
  findPropertyInNode name root none

/-! Tree-sitter output for the TypeScript source
`export default { server: { preset: "static" } }`, transcribed node
for node (anonymous nodes carry no field name; `pair` nodes expose
`key` and `value` fields). -/

def tsStaticStr : STNode := .mk "string" "\"static\"" .nil

def tsPresetPair : STNode :=
  .mk "pair" "preset: \"static\""
    (.cons (some "key") (.mk "property_identifier" "preset" .nil)
      (.cons none (.mk ":" ":" .nil)
        (.cons (some "value") tsStaticStr .nil)))

def tsInnerObj : STNode :=
  .mk "object" "\x7b preset: \"static\" \x7d"
    (.cons none (.mk "\x7b" "\x7b" .nil)
      (.cons none tsPresetPair
        (.cons none (.mk "\x7d" "\x7d" .nil) .nil)))

def tsServerPair : STNode :=
  .mk "pair" "server: \x7b preset: \"static\" \x7d"
    (.cons (some "key") (.mk "property_identifier" "server" .nil)
      (.cons none (.mk ":" ":" .nil)
        (.cons (some "value") tsInnerObj .nil)))

def tsOuterObj : STNode :=
  .mk "object" "\x7b server: \x7b preset: \"static\" \x7d \x7d"
    (.cons none (.mk "\x7b" "\x7b" .nil)
      (.cons none tsServerPair
        (.cons none (.mk "\x7d" "\x7d" .nil) .nil)))

def tsExportTree : STNode :=
  .mk "program" "export default \x7b server: \x7b preset: \"static\" \x7d \x7d"
    (.cons none
      (.mk "export_statement" "export default \x7b server: \x7b preset: \"static\" \x7d \x7d"
        (.cons none (.mk "export" "export" .nil)
          (.cons none (.mk "default" "default" .nil)
            (.cons (some "value") tsOuterObj .nil))))
      .nil)

/-! ## Framework classifier (`pkg/providers/node/framework.go` part of
`config_parser.go` sources)

`Framework` and `OutputType` are Go string types; the constants are
kept as strings.  The static/server sub-decisions read configuration
files through the tree-sitter parsers, passed here as the parameters
`pTS pJS : String → Option STNode` (`none` models a parse error). -/

def FrameworkNone : String := ""
def FrameworkNextJS : String := "nextjs"
def FrameworkRemix : String := "remix"
def FrameworkNuxt : String := "nuxt"
def FrameworkAstro : String := "astro"
def FrameworkVite : String := "vite"
def FrameworkCRA : String := "create-react-app"
def FrameworkAngular : String := "angular"
def FrameworkSvelteKit : String := "sveltekit"
def FrameworkSolidStart : String := "solid-start"
def FrameworkExpress : String := "express"
def FrameworkFastify : String := "fastify"
def FrameworkNestJS : String := "nestjs"
def FrameworkAdonisJS : String := "adonisjs"
def FrameworkReactRouter : String := "react-router"
def FrameworkTanStack : String := "tanstack-start"
def FrameworkGatsby : String := "gatsby"
def FrameworkEleventy : String := "eleventy"

def OutputTypeNone : String := ""
def OutputTypeStatic : String := "static"
def OutputTypeServer : String := "server"

structure FrameworkInfo where
  Name : String
  Version : String
  OutputType : String
  deriving DecidableEq, Repr

/-- `cleanVersion`: when the version starts with a constraint marker,
strip the leading run of markers and spaces. -/
def cleanVersion (v : String) : String :=
  let isMarker : Char → Bool := fun c => c = '^' || c = '~' || c = '>' || c = '<' || c = '='
  match v.data with
  | c :: _ =>
    if isMarker c then ⟨v.data.dropWhile (fun d => isMarker d || d = ' ')⟩ else v
  | [] => v

/-- Check one JS config file: parse it and test the extracted
property value; a read or parse failure is `false` (skip). -/
def jsConfigCheck (pJS : String → Option STNode) (ctx : Context)
    (file prop : String) (want : String → Bool) : Bool :=
  match ctx.ReadFile file with
  | some data =>
    match pJS data with
    | some root => want (FindPropertyValue root prop)
    | none => false
  | none => false

/-- Same check against the TypeScript parser. -/
def tsConfigCheck (pTS : String → Option STNode) (ctx : Context)
    (file prop : String) (want : String → Bool) : Bool :=
  match ctx.ReadFile file with
  | some data =>
    match pTS data with
    | some root => want (FindPropertyValue root prop)
    | none => false
  | none => false

/-- `isNextJSStaticExport`: `output: 'export'` in `next.config.ts`
(TypeScript parser), else in `next.config.mjs`/`next.config.js`. -/
def isNextJSStaticExport (pTS pJS : String → Option STNode) (ctx : Context) : Bool :=
  tsConfigCheck pTS ctx "next.config.ts" "output" (fun v => v = "export") ||
  jsConfigCheck pJS ctx "next.config.mjs" "output" (fun v => v = "export") ||
  jsConfigCheck pJS ctx "next.config.js" "output" (fun v => v = "export")

/-- `isAstroSSRMode`: `output: 'server'|'hybrid'` in `astro.config.ts`
(TS parser), `astro.config.mjs`, `astro.config.js`. -/
def isAstroSSRMode (pTS pJS : String → Option STNode) (ctx : Context) : Bool :=
  tsConfigCheck pTS ctx "astro.config.ts" "output" (fun v => v = "server" || v = "hybrid") ||
  jsConfigCheck pJS ctx "astro.config.mjs" "output" (fun v => v = "server" || v = "hybrid") ||
  jsConfigCheck pJS ctx "astro.config.js" "output" (fun v => v = "server" || v = "hybrid")

/-- `isNuxtSPAMode`: `ssr: false` in `nuxt.config.ts` (TS parser),
`nuxt.config.js`, `nuxt.config.mjs`. -/
def isNuxtSPAMode (pTS pJS : String → Option STNode) (ctx : Context) : Bool :=
  tsConfigCheck pTS ctx "nuxt.config.ts" "ssr" (fun v => v = "false") ||
  jsConfigCheck pJS ctx "nuxt.config.js" "ssr" (fun v => v = "false") ||
  jsConfigCheck pJS ctx "nuxt.config.mjs" "ssr" (fun v => v = "false")

/-- `isReactRouterSPAMode`: `ssr: false` in `react-router.config.ts`
then `react-router.config.js`. -/
def isReactRouterSPAMode (pTS pJS : String → Option STNode) (ctx : Context) : Bool :=
  tsConfigCheck pTS ctx "react-router.config.ts" "ssr" (fun v => v = "false") ||
  jsConfigCheck pJS ctx "react-router.config.js" "ssr" (fun v => v = "false")

/-- `isSolidStartSPAMode`: `ssr: false` in `app.config.ts` then
`app.config.js`. -/
def isSolidStartSPAMode (pTS pJS : String → Option STNode) (ctx : Context) : Bool :=
  tsConfigCheck pTS ctx "app.config.ts" "ssr" (fun v => v = "false") ||
  jsConfigCheck pJS ctx "app.config.js" "ssr" (fun v => v = "false")

/-- Nested-path variant of the config check (JS parser). -/
def jsNestedConfigCheck (pJS : String → Option STNode) (ctx : Context)
    (file : String) (path : List String) (want : String → Bool) : Bool :=
  match ctx.ReadFile file with
  | some data =>
    match pJS data with
    | some root => want (FindNestedPropertyValue root path)
    | none => false
  | none => false

/-- Nested-path variant of the config check (TS parser). -/
def tsNestedConfigCheck (pTS : String → Option STNode) (ctx : Context)
    (file : String) (path : List String) (want : String → Bool) : Bool :=
  match ctx.ReadFile file with
  | some data =>
    match pTS data with
    | some root => want (FindNestedPropertyValue root path)
    | none => false
  | none => false

/-- `isTanStackStartStaticMode`: nested `server.preset: 'static'` in
`app.config.ts` then `app.config.js`. -/
def isTanStackStartStaticMode (pTS pJS : String → Option STNode) (ctx : Context) : Bool :=
  tsNestedConfigCheck pTS ctx "app.config.ts" ["server", "preset"] (fun v => v = "static") ||
  jsNestedConfigCheck pJS ctx "app.config.js" ["server", "preset"] (fun v => v = "static")

/-- `isSPAProject` (defined alongside the classifier in the source). -/
def isSPAProject (pkg : PackageJSON) : Bool :=
  ["react", "vue", "svelte", "preact", "lit", "solid-js",
    "@builder.io/qwik"].any pkg.HasDependency

/-- `DetectFramework`: the ordered decision list of the source, first
matching rule returns immediately. -/
def DetectFramework (pTS pJS : String → Option STNode) (ctx : Context)
    (pkg : PackageJSON) : FrameworkInfo :=
  if pkg.HasDependency "next" then
    ⟨FrameworkNextJS, cleanVersion (pkg.GetDependencyVersion "next"),
      if isNextJSStaticExport pTS pJS ctx then OutputTypeStatic else OutputTypeServer⟩
  else if pkg.HasDependency "@remix-run/react" || pkg.HasDependency "@remix-run/node" then
    ⟨FrameworkRemix, cleanVersion (pkg.GetDependencyVersion "@remix-run/react"),
      OutputTypeServer⟩
  else if pkg.HasDependency "nuxt" || pkg.HasDependency "nuxt3" then
    ⟨FrameworkNuxt, cleanVersion (pkg.GetDependencyVersion "nuxt"),
      if isNuxtSPAMode pTS pJS ctx then OutputTypeStatic else OutputTypeServer⟩
  else if pkg.HasDependency "astro" || ctx.HasFile "astro.config.mjs" ||
      ctx.HasFile "astro.config.js" || ctx.HasFile "astro.config.ts" then
    ⟨FrameworkAstro, cleanVersion (pkg.GetDependencyVersion "astro"),
      if isAstroSSRMode pTS pJS ctx then OutputTypeServer else OutputTypeStatic⟩
  else if pkg.HasDependency "@sveltejs/kit" then
    ⟨FrameworkSvelteKit, cleanVersion (pkg.GetDependencyVersion "@sveltejs/kit"),
      if pkg.HasDependency "@sveltejs/adapter-static" then OutputTypeStatic
      else OutputTypeServer⟩
  else if pkg.HasDependency "solid-start" || pkg.HasDependency "@solidjs/start" then
    ⟨FrameworkSolidStart,
      cleanVersion
        (if pkg.GetDependencyVersion "@solidjs/start" = "" then
          pkg.GetDependencyVersion "solid-start"
        else pkg.GetDependencyVersion "@solidjs/start"),
      if isSolidStartSPAMode pTS pJS ctx then OutputTypeStatic else OutputTypeServer⟩
  else if pkg.HasDependency "@tanstack/start" || pkg.HasDependency "@tanstack/react-start" then
    ⟨FrameworkTanStack, cleanVersion (pkg.GetDependencyVersion "@tanstack/start"),
      if isTanStackStartStaticMode pTS pJS ctx then OutputTypeStatic else OutputTypeServer⟩
  else if pkg.HasDependency "react-router" &&
      (ctx.HasFile "react-router.config.ts" || ctx.HasFile "react-router.config.js") then
    ⟨FrameworkRemix, cleanVersion (pkg.GetDependencyVersion "react-router"),
      if isReactRouterSPAMode pTS pJS ctx then OutputTypeStatic else OutputTypeServer⟩
  else if pkg.HasDependency "gatsby" then
    ⟨FrameworkGatsby, cleanVersion (pkg.GetDependencyVersion "gatsby"), OutputTypeStatic⟩
  else if pkg.HasDependency "@11ty/eleventy" then
    ⟨FrameworkEleventy, cleanVersion (pkg.GetDependencyVersion "@11ty/eleventy"),
      OutputTypeStatic⟩
  else if pkg.HasDependency "@angular/core" || ctx.HasFile "angular.json" then
    ⟨FrameworkAngular, cleanVersion (pkg.GetDependencyVersion "@angular/core"),
      if pkg.HasDependency "@angular/ssr" then OutputTypeServer else OutputTypeStatic⟩
  else if pkg.HasDependency "@adonisjs/core" then
    ⟨FrameworkAdonisJS, cleanVersion (pkg.GetDependencyVersion "@adonisjs/core"),
      OutputTypeServer⟩
  else if pkg.HasDependency "@nestjs/core" then
    ⟨FrameworkNestJS, cleanVersion (pkg.GetDependencyVersion "@nestjs/core"),
      OutputTypeServer⟩
  else if pkg.HasDependency "fastify" then
    ⟨FrameworkFastify, cleanVersion (pkg.GetDependencyVersion "fastify"), OutputTypeServer⟩
  else if pkg.HasDependency "express" then
    ⟨FrameworkExpress, cleanVersion (pkg.GetDependencyVersion "express"), OutputTypeServer⟩
  else if pkg.HasDependency "react-scripts" then
    ⟨FrameworkCRA, cleanVersion (pkg.GetDependencyVersion "react-scripts"), OutputTypeStatic⟩
  else if pkg.HasDependency "vite" || ctx.HasFile "vite.config.js" ||
      ctx.HasFile "vite.config.ts" || ctx.HasFile "vite.config.mjs" then
    ⟨FrameworkVite, cleanVersion (pkg.GetDependencyVersion "vite"), OutputTypeStatic⟩
  else ⟨FrameworkNone, "", OutputTypeNone⟩

/-- `FrameworkInfo.GetDefaultBuildCommand`. -/
def FrameworkInfo.GetDefaultBuildCommand (f : FrameworkInfo)
    (pm : PackageManagerInfo) : String :=
  let run := pm.GetRunCommand
  if f.Name = FrameworkNextJS ∨ f.Name = FrameworkRemix ∨ f.Name = FrameworkNuxt ∨
      f.Name = FrameworkAstro ∨ f.Name = FrameworkVite ∨ f.Name = FrameworkCRA ∨
      f.Name = FrameworkAngular ∨ f.Name = FrameworkSvelteKit ∨
      f.Name = FrameworkGatsby then
    run ++ " build"
  else ""

/-- `FrameworkInfo.GetDefaultStartCommand`. -/
def FrameworkInfo.GetDefaultStartCommand (f : FrameworkInfo)
    (pm : PackageManagerInfo) : String :=
  let run := pm.GetRunCommand
  if f.Name = FrameworkNextJS ∨ f.Name = FrameworkRemix then run ++ " start"
  else if f.Name = FrameworkNuxt then "node .output/server/index.mjs"
  else if f.Name = FrameworkAstro then "node ./dist/server/entry.mjs"
  else if f.Name = FrameworkNestJS ∨ f.Name = FrameworkExpress ∨
      f.Name = FrameworkFastify then run ++ " start"
  else ""

/-! ## Native dependency mapper (`pkg/providers/node/native_deps.go`) -/

structure NativeDependency where
  Package : String
  AptPackages : List String
  Description : String
  deriving DecidableEq, Repr

/-- The static catalog, in source order. -/
def NativeDependencies : List NativeDependency :=
  [⟨"sharp", ["libvips-dev"], "Image processing library"⟩,
   ⟨"@prisma/client", ["openssl"], "Database ORM"⟩,
   ⟨"prisma", ["openssl"], "Database ORM CLI"⟩,
   ⟨"puppeteer",
     ["chromium", "libnss3", "libatk1.0-0", "libatk-bridge2.0-0", "libcups2", "libdrm2",
      "libxkbcommon0", "libxcomposite1", "libxdamage1", "libxfixes3", "libxrandr2",
      "libgbm1", "libasound2", "libpango-1.0-0", "libcairo2"],
     "Headless Chrome automation"⟩,
   ⟨"playwright",
     ["libnss3", "libatk1.0-0", "libatk-bridge2.0-0", "libcups2", "libdrm2",
      "libxkbcommon0", "libxcomposite1", "libxdamage1", "libxfixes3", "libxrandr2",
      "libgbm1", "libasound2", "libpango-1.0-0", "libcairo2"],
     "Browser automation"⟩,
   ⟨"canvas", ["libcairo2-dev", "libjpeg-dev", "libpango1.0-dev", "libgif-dev",
     "librsvg2-dev"], "Canvas rendering"⟩,
   ⟨"bcrypt", ["build-essential", "python3"], "Password hashing"⟩,
   ⟨"argon2", ["build-essential"], "Password hashing"⟩,
   ⟨"sqlite3", ["build-essential", "python3"], "SQLite database"⟩,
   ⟨"better-sqlite3", ["build-essential", "python3"], "SQLite database"⟩,
   ⟨"node-gyp", ["build-essential", "python3"], "Native addon build tool"⟩,
   ⟨"cpu-features", ["build-essential"], "CPU feature detection"⟩,
   ⟨"ssh2", ["build-essential"], "SSH client"⟩,
   ⟨"libsql", ["build-essential"], "LibSQL database"⟩,
   ⟨"@libsql/client", ["build-essential"], "LibSQL client"⟩]

/-- `DetectNativeDependencies`: the catalog entries whose package is a
declared dependency, in catalog order. -/
def DetectNativeDependencies (pkg : PackageJSON) : List NativeDependency :=
  NativeDependencies.filter (fun dep => pkg.HasDependency dep.Package)

/-- Inner loop of `GetRequiredAptPackages`: append each package not
yet seen (the `seen` set is the membership of the accumulator). -/
def addAptPackages (acc : List String) (pkgs : List String) : List String :=
  pkgs.foldl (fun a p => if p ∈ a then a else a ++ [p]) acc

/-- `GetRequiredAptPackages`: flatten the entries' package lists,
de-duplicating while preserving first-seen order. -/
def GetRequiredAptPackages (deps : List NativeDependency) : List String :=
  deps.foldl (fun a dep => addAptPackages a dep.AptPackages) []

/-! ## Command synthesis and plan assembly (`pkg/providers/node/node.go`,
`pkg/app/plan.go`) -/

/-- `determineBuildCommand`: explicit `build` script, else the
framework default, else empty. -/
def determineBuildCommand (pkg : PackageJSON) (pm : PackageManagerInfo)
    (fw : FrameworkInfo) : String :=
  let run := pm.GetRunCommand
  if pkg.HasScript "build" then run ++ " build"
  else
    let cmd := fw.GetDefaultBuildCommand pm
    if cmd ≠ "" then cmd else ""

/-- The fixed candidate entry points probed by `determineStartCommand`,
in source order. -/
def entryPoints : List String :=
  ["dist/index.js", "build/index.js", "index.js", "server.js", "app.js"]

/-- `hasEntryPoint`: the probe consults only the manifest's `main`
field (the source's comment notes it does not check the filesystem). -/
def hasEntryPoint (pkg : PackageJSON) (path : String) : Bool :=
  pkg.Main = path

/-- `determineStartCommand`: `start` script, `serve` script, framework
default, `node <main>`, entry-point probe, empty — in that order. -/
def determineStartCommand (pkg : PackageJSON) (pm : PackageManagerInfo)
    (fw : FrameworkInfo) : String :=
  let run := pm.GetRunCommand
  if pkg.HasScript "start" then run ++ " start"
  else if pkg.HasScript "serve" then run ++ " serve"
  else
    let cmd := fw.GetDefaultStartCommand pm
    if cmd ≠ "" then cmd
    else if pkg.Main ≠ "" then "node " ++ pkg.Main
    else
      match entryPoints.find? (hasEntryPoint pkg) with
      | some ep => "node " ++ ep
      | none => ""

/-- `detectSPA`: frameworks that emit per-route HTML are never SPA;
otherwise any client-side router dependency marks one. -/
def detectSPA (pkg : PackageJSON) (fw : FrameworkInfo) : Bool :=
  if fw.Name = FrameworkGatsby ∨ fw.Name = FrameworkEleventy ∨
      fw.Name = FrameworkNextJS ∨ fw.Name = FrameworkNuxt ∨
      fw.Name = FrameworkAstro then false
  else
    ["vue-router", "react-router-dom", "react-router", "@reach/router", "wouter",
     "@tanstack/react-router", "svelte-navigator", "svelte-routing", "@roxi/routify",
     "@solidjs/router", "solid-app-router", "preact-router", "navigo",
     "page"].any pkg.HasDependency

/-- `detectRelevantFiles`: the lock file, then version files, then
config files, keeping only those present, in source order. -/
def detectRelevantFiles (ctx : Context) (pm : PackageManagerInfo) : List String :=
  (if ctx.HasFile pm.GetLockFile then [pm.GetLockFile] else []) ++
  ([".nvmrc", ".node-version", ".tool-versions", "mise.toml"].filter ctx.HasFile) ++
  ([".yarnrc.yml", ".yarnrc.yaml", ".npmrc", ".pnpmrc",
    "tsconfig.json", "jsconfig.json",
    "vite.config.js", "vite.config.ts", "vite.config.mjs",
    "next.config.js", "next.config.mjs", "next.config.ts",
    "astro.config.mjs", "astro.config.js", "astro.config.ts",
    "angular.json",
    "remix.config.js",
    "nuxt.config.ts", "nuxt.config.js"].filter ctx.HasFile)

/-- Values stored in a `Plan`'s open `metadata` map (the Go
`interface{}` values the provider actually writes: strings, booleans
and string lists). -/
inductive MetaVal where
  | s (v : String)
  | b (v : Bool)
  | strs (v : List String)
  deriving DecidableEq, Repr

/-- `Plan` (`pkg/app/plan.go`).  Go slices and maps are lists here;
`Metadata` is an association list written once per key. -/
structure Plan where
  Provider : String := ""
  Language : String := ""
  LanguageVersion : String := ""
  Framework : String := ""
  FrameworkVersion : String := ""
  PackageManager : String := ""
  PackageManagerVersion : String := ""
  InstallCommand : String := ""
  BuildCommand : String := ""
  StartCommand : String := ""
  DetectedFiles : List String := []
  Metadata : List (String × MetaVal) := []
  BuildEnv : List (String × String) := []
  Env : List (String × String) := []
  deriving DecidableEq, Repr

/-- Lookup in the metadata map. -/
def metaGet (md : List (String × MetaVal)) (k : String) : Option MetaVal :=
  (md.find? (fun p => p.1 = k)).map (fun p => p.2)

/-- `Provider.Plan` (`node.go`): read and parse `package.json`
(failures are fatal), run the resolvers, then assemble the plan and
its metadata step for step as the source does.  `parsePkg` stands for
`ParsePackageJSON` (Go `encoding/json`), `pTS`/`pJS` for the
tree-sitter parsers. -/
def nodePlan (parsePkg : String → Option PackageJSON)
    (pTS pJS : String → Option STNode) (ctx : Context) : Except String Plan :=
  match ctx.ReadFile "package.json" with
  | none => .error "failed to read package.json"
  | some pkgData =>
    match parsePkg pkgData with
    | none => .error "failed to parse package.json"
    | some pkg =>
      let pmInfo := DetectPackageManager ctx pkg
      let nodeVersion := DetectNodeVersion ctx (some pkg)
      let fwInfo := DetectFramework pTS pJS ctx pkg
      let language := if pmInfo.Name = PackageManagerBun then "bun" else "nodejs"
      let languageVersion :=
        if pmInfo.Name = PackageManagerBun then
          if pmInfo.Version ≠ "" then pmInfo.Version else "latest"
        else nodeVersion
      let md0 : List (String × MetaVal) := []
      let md1 := if pmInfo.Name = PackageManagerBun then
          md0 ++ [("runtime", .s "bun"),
                  ("runtime_note", .s "Using Bun runtime (oven/bun image)")]
        else md0
      let md2 := if fwInfo.Name ≠ FrameworkNone ∧ fwInfo.OutputType ≠ OutputTypeNone then
          md1 ++ [("output_type", .s fwInfo.OutputType)]
        else md1
      let md3 := if pkg.Name ≠ "" then md2 ++ [("name", .s pkg.Name)] else md2
      let md4 := if pkg.Version ≠ "" then md3 ++ [("version", .s pkg.Version)] else md3
      let md5 := if pkg.IsMonorepo then
          md4 ++ [("is_monorepo", .b true), ("workspaces", .strs pkg.Workspaces)]
        else md4
      let md6 := if pkg.ModuleType ≠ "" then
          md5 ++ [("module_type", .s pkg.ModuleType)]
        else md5
      let nativeDeps := DetectNativeDependencies pkg
      let md7 := if nativeDeps.length > 0 then
          md6 ++ [("apt_packages", .strs (GetRequiredAptPackages nativeDeps)),
                  ("native_packages", .strs (nativeDeps.map (fun d => d.Package)))]
        else md6
      let md8 := if ctx.envGet "COOLPACK_BASE_IMAGE" ≠ "" then
          md7 ++ [("base_image", .s (ctx.envGet "COOLPACK_BASE_IMAGE"))]
        else md7
      let md9 := if pkg.HasDependency "cypress" then
          md8 ++ [("has_cypress", .b true)]
        else md8
      let md10 := if ctx.HasFile ".moon/workspace.yml" then
          md9 ++ [("has_moon", .b true)]
        else md9
      let md11 := if pkg.CacheDirectories.length > 0 then
          md10 ++ [("cache_directories", .strs pkg.CacheDirectories)]
        else md10
      let md12 := if metaGet md11 "output_type" = some (.s "static") ∧ detectSPA pkg fwInfo then
          md11 ++ [("is_spa", .b true)]
        else md11
      .ok
        { Provider := "node"
          Language := language
          LanguageVersion := languageVersion
          Framework := if fwInfo.Name ≠ FrameworkNone then fwInfo.Name else ""
          FrameworkVersion := if fwInfo.Name ≠ FrameworkNone then fwInfo.Version else ""
          PackageManager := pmInfo.Name
          PackageManagerVersion := pmInfo.Version
          InstallCommand := pmInfo.GetInstallCommand
          BuildCommand := determineBuildCommand pkg pmInfo fwInfo
          StartCommand := determineStartCommand pkg pmInfo fwInfo
          DetectedFiles := ["package.json"] ++ detectRelevantFiles ctx pmInfo
          Metadata := md12
          BuildEnv := []
          Env := [] }

/-! ## Wire format of `Plan` (`pkg/app/plan.go` JSON tags)

Every field except `provider` and `language` carries `omitempty`.  A
JSON object over the fixed key set is modelled as a record of optional
values: `none` is an absent key.  `marshalPlan` implements Go
`encoding/json` marshalling under those tags (a string/slice/map field
is omitted when it is empty); `unmarshalPlan` implements unmarshalling
(an absent key leaves the Go zero value). -/

structure PlanWire where
  provider : Option String := none
  language : Option String := none
  language_version : Option String := none
  framework : Option String := none
  framework_version : Option String := none
  package_manager : Option String := none
  package_manager_version : Option String := none
  install_command : Option String := none
  build_command : Option String := none
  start_command : Option String := none
  detected_files : Option (List String) := none
  metadata : Option (List (String × MetaVal)) := none
  build_env : Option (List (String × String)) := none
  env : Option (List (String × String)) := none
  deriving DecidableEq, Repr

/-- `omitempty` on a string field. -/
def omitEmptyStr (s : String) : Option String :=
  if s = "" then none else some s

/-- `omitempty` on a slice or map field (Go omits when the length is
zero, for nil and empty alike). -/
def omitEmptyList {α : Type} (l : List α) : Option (List α) :=
  if l.isEmpty then none else some l

/-- Go `json.Marshal` on `Plan` under the struct's tags. -/
def marshalPlan (p : Plan) : PlanWire :=
  { provider := some p.Provider
    language := some p.Language
    language_version := omitEmptyStr p.LanguageVersion
    framework := omitEmptyStr p.Framework
    framework_version := omitEmptyStr p.FrameworkVersion
    package_manager := omitEmptyStr p.PackageManager
    package_manager_version := omitEmptyStr p.PackageManagerVersion
    install_command := omitEmptyStr p.InstallCommand
    build_command := omitEmptyStr p.BuildCommand
    start_command := omitEmptyStr p.StartCommand
    detected_files := omitEmptyList p.DetectedFiles
    metadata := omitEmptyList p.Metadata
    build_env := omitEmptyList p.BuildEnv
    env := omitEmptyList p.Env }

/-- Go `json.Unmarshal` into `Plan`: an absent key leaves the zero
value. -/
def unmarshalPlan (w : PlanWire) : Plan :=
  { Provider := w.provider.getD ""
    Language := w.language.getD ""
    LanguageVersion := w.language_version.getD ""
    Framework := w.framework.getD ""
    FrameworkVersion := w.framework_version.getD ""
    PackageManager := w.package_manager.getD ""
    PackageManagerVersion := w.package_manager_version.getD ""
    InstallCommand := w.install_command.getD ""
    BuildCommand := w.build_command.getD ""
    StartCommand := w.start_command.getD ""
    DetectedFiles := w.detected_files.getD []
    Metadata := w.metadata.getD []
    BuildEnv := w.build_env.getD []
    Env := w.env.getD [] }

/-! ## Orchestrator (`pkg/detector`)

`Provider` is the interface of `pkg/detector/types.go`; Go's
`(T, error)` pairs become `Except`.  `Detector.Detect` walks the
registered providers in order: a `detect` error means "continue", the
first `true` hands over to that provider's `plan` (whose error
propagates), and exhaustion yields `(nil, nil)` — `.ok none`. -/

structure ProviderIface where
  name : String
  detect : Context → Except String Bool
  plan : Context → Except String Plan

/-- `Detector.Detect` over the registered provider list. -/
def detectorDetect (providers : List ProviderIface) (ctx : Context) :
    Except String (Option Plan) :=
  match providers with
  | [] => .ok none
  | p :: rest =>
    match p.detect ctx with
    | .error _ => detectorDetect rest ctx
    | .ok true => (p.plan ctx).map some
    | .ok false => detectorDetect rest ctx

/-- The Node.js provider (`pkg/providers/node/node.go`): `Name`,
`Detect` (presence of `package.json`, never an error) and `Plan`. -/
def nodeProvider (parsePkg : String → Option PackageJSON)
    (pTS pJS : String → Option STNode) : ProviderIface :=
  { name := "node"
    detect := fun ctx => .ok (ctx.HasFile "package.json")
    plan := nodePlan parsePkg pTS pJS }

/-- `registerProviders`: the detector's provider list — currently the
Node.js provider alone, in registration order. -/
def registeredProviders (parsePkg : String → Option PackageJSON)
    (pTS pJS : String → Option STNode) : List ProviderIface :=
  [nodeProvider parsePkg pTS pJS]

/-! ## The spec's wording of the entry-point probe

For comparison with `determineStartCommand` only.  Modelled from the
spec: "absent all of those, fixed candidate entry-point filenames are
probed in a fixed order and the first declared as the manifest's
`main` field or present as a default entry point wins; if none match,
the command field is left empty".  The probe is over the candidate
list; the code exposes no filesystem presence to this function, so
"present as a default entry point" is the probe's `hasEntryPoint`
check. -/
def specStartCommand (pkg : PackageJSON) (pm : PackageManagerInfo)
    (fw : FrameworkInfo) : String :=
  let run := pm.GetRunCommand
  if pkg.HasScript "start" then run ++ " start"
  else if pkg.HasScript "serve" then run ++ " serve"
  else
    let cmd := fw.GetDefaultStartCommand pm
    if cmd ≠ "" then cmd
    else
      match entryPoints.find? (fun ep => hasEntryPoint pkg ep) with
      | some ep => "node " ++ ep
      | none => ""

/-! ## Claims -/

/-- C1: Package-manager resolution follows the strict priority
packageManager field > lock file > engines > default npm; the resolver
is a total function of the evidence (hence deterministic), and the
higher-priority signal always wins a conflict: for every manifest
whose `packageManager` field is `"pnpm@8.6.0"`, the result is pnpm at
version 8.6.0 for *every* evidence view — in particular even when a
`yarn.lock` is present. -/
theorem C1_packageManagerField_wins (ctx : Context) (pkg : PackageJSON)
    (h : pkg.PackageManager = "pnpm@8.6.0") :
    DetectPackageManager ctx pkg = ⟨PackageManagerPNPM, "8.6.0"⟩ := by
  have hg : pkg.GetPackageManagerInfo = ("pnpm", "8.6.0") := by
    unfold PackageJSON.GetPackageManagerInfo
    rw [h]; decide
  unfold DetectPackageManager
  rw [hg]
  norm_num

/-- Witness for C1 at a concrete conflicting evidence view: the
manifest declares pnpm@8.6.0 while a `yarn.lock` is present. -/
theorem C1_packageManagerField_wins_witness :
    (⟨[("yarn.lock", "")], []⟩ : Context).HasFile "yarn.lock" = true ∧
    DetectPackageManager ⟨[("yarn.lock", "")], []⟩ { PackageManager := "pnpm@8.6.0" } =
      ⟨PackageManagerPNPM, "8.6.0"⟩ :=
  ⟨by decide, C1_packageManagerField_wins ⟨[("yarn.lock", "")], []⟩
    { PackageManager := "pnpm@8.6.0" } rfl⟩

/-- C2 counterexample: under root `/app` the relative name
`../secret` resolves — via `filepath.Join`'s cleaning — to `/secret`,
which lies outside the root, yet `HasFile` happily stats it on a
filesystem where `/secret` exists: the operation is not rejected. -/
theorem C2_traversal_not_rejected :
    goJoin "/app" "../secret" = "/secret" ∧
    withinRoot "/app" (goJoin "/app" "../secret") = false ∧
    hasFileResolved ["/secret"] "/app" "../secret" = true := by decide

/-- C2 amended: the evidence operations perform no `..` rejection;
a relative path is lexically joined with the root (`filepath.Join`,
which cleans `..` segments) and the operation touches the resolved
path even when it lies outside the root.  Consequently `HasFile`'s
answer depends on filesystem state outside the root: the two
filesystems below hold exactly the same files within `/app` (none),
yet `HasFile "../secret"` answers differently on them. -/
theorem C2_join_escapes_root :
    goJoin "/app" "../secret" = "/secret" ∧
    withinRoot "/app" "/secret" = false ∧
    hasFileResolved ["/secret"] "/app" "../secret" = true ∧
    hasFileResolved [] "/app" "../secret" = false ∧
    ["/secret"].filter (fun p => withinRoot "/app" p) =
      ([] : List String).filter (fun p => withinRoot "/app" p) := by decide

/-- C3: Runtime version resolution is the strict first-non-empty
cascade of the source: with no overrides and no engines constraint, a
`.nvmrc` of `"v18.2.0\n"` yields `"18.2.0"`; with only
`engines.node = ">=18 <21"` the result is the major component `"18"`;
with no signal at all the result is the fixed default constant; and
any version-file value that — after trimming whitespace and a leading
`v` — begins case-insensitively with `lts` collapses to the default. -/
theorem C3_nodeVersion_cascade :
    (∀ (ctx : Context) (pkg : PackageJSON),
      ctx.envGet "COOLPACK_NODE_VERSION" = "" →
      ctx.envGet "NODE_VERSION" = "" →
      pkg.Engines.Node = "" →
      ctx.ReadFile ".nvmrc" = some "v18.2.0\n" →
      DetectNodeVersion ctx (some pkg) = "18.2.0") ∧
    (∀ (ctx : Context) (pkg : PackageJSON),
      ctx.envGet "COOLPACK_NODE_VERSION" = "" →
      ctx.envGet "NODE_VERSION" = "" →
      pkg.Engines.Node = ">=18 <21" →
      DetectNodeVersion ctx (some pkg) = "18") ∧
    (∀ (ctx : Context) (pkg : PackageJSON),
      ctx.envGet "COOLPACK_NODE_VERSION" = "" →
      ctx.envGet "NODE_VERSION" = "" →
      pkg.Engines.Node = "" →
      ctx.ReadFile ".nvmrc" = none →
      ctx.ReadFile ".node-version" = none →
      ctx.ReadFile ".tool-versions" = none →
      ctx.ReadFile "mise.toml" = none →
      DetectNodeVersion ctx (some pkg) = DefaultNodeVersion) ∧
    (∀ content : String,
      goHasPre "lts" (goToLower (goTrimPre "v" (goTrimSpace content))) = true →
      parseVersionFile content = DefaultNodeVersion) := by
  refine ⟨?_, ?_, ?_, ?_⟩
  · intro ctx pkg h1 h2 h3 h4
    have e : parseVersionFile "v18.2.0\n" = "18.2.0" := by decide
    simp [DetectNodeVersion, h1, h2, h3, h4, e]
    intro hc
    exact absurd hc (by decide)
  · intro ctx pkg h1 h2 h3
    have e : parseEngineVersion ">=18 <21" = "18" := by decide
    simp [DetectNodeVersion, h1, h2, h3, e]
  · intro ctx pkg h1 h2 h3 h4 h5 h6 h7
    simp [DetectNodeVersion, h1, h2, h3, h4, h5, h6, h7]
  · intro content h
    simp [parseVersionFile, h]

/-- Witness for C3 at concrete evidence: an `.nvmrc`-only project, an
engines-only manifest, a signal-free project and an `lts/iron`
version-file value. -/
theorem C3_nodeVersion_cascade_witness :
    DetectNodeVersion ⟨[(".nvmrc", "v18.2.0\n")], []⟩ (some {}) = "18.2.0" ∧
    DetectNodeVersion ⟨[], []⟩ (some { Engines := { Node := ">=18 <21" } }) = "18" ∧
    DetectNodeVersion ⟨[], []⟩ (some {}) = DefaultNodeVersion ∧
    parseVersionFile " lts/iron\n" = DefaultNodeVersion :=
  ⟨C3_nodeVersion_cascade.1 ⟨[(".nvmrc", "v18.2.0\n")], []⟩ {} rfl rfl rfl rfl,
   C3_nodeVersion_cascade.2.1 ⟨[], []⟩ { Engines := { Node := ">=18 <21" } } rfl rfl rfl,
   C3_nodeVersion_cascade.2.2.1 ⟨[], []⟩ {} rfl rfl rfl rfl rfl rfl rfl,
   C3_nodeVersion_cascade.2.2.2 " lts/iron\n" (by decide)⟩

/-- C4: Nested property resolution resolves the first path segment to
its *value node* and recurses with the remaining path; a failed
segment yields the "no value" result `""`, never an error (the
function is total).  On the tree-sitter parse of
`export default { server: { preset: "static" } }`, the path
`["server","preset"]` returns `"static"` and `["server","missing"]`
returns no value. -/
theorem C4_nested_property_resolution :
    FindNestedPropertyValue tsExportTree ["server", "preset"] = "static" ∧
    FindNestedPropertyValue tsExportTree ["server", "missing"] = "" ∧
    (∀ (n : STNode) (p : String) (ps : List String),
      findPropertyObjectNode p n = none →
      FindNestedPropertyValue n (p :: ps) = "") ∧
    (∀ (n v : STNode) (p q : String) (qs : List String),
      findPropertyObjectNode p n = some v →
      FindNestedPropertyValue n (p :: q :: qs) = FindNestedPropertyValue v (q :: qs)) ∧
    (∀ (n v : STNode) (p : String),
      findPropertyObjectNode p n = some v →
      FindNestedPropertyValue n [p] = trimQuotes (getNodeText v)) := by
  refine ⟨by decide, by decide, ?_, ?_, ?_⟩
  · intro n p ps h
    cases ps with
    | nil => simp [FindNestedPropertyValue, h]
    | cons q qs => simp [FindNestedPropertyValue, h]
  · intro n v p q qs h
    simp [FindNestedPropertyValue, h]
  · intro n v p h
    simp [FindNestedPropertyValue, h]

/-- Witness for C4: the recursion equations applied at the concrete
tree — a failing first segment yields no value, and the `server`
segment resolves to the inner object node before recursing. -/
theorem C4_nested_property_resolution_witness :
    FindNestedPropertyValue tsExportTree ["absent", "preset"] = "" ∧
    FindNestedPropertyValue tsExportTree ["server", "preset"] =
      FindNestedPropertyValue tsInnerObj ["preset"] :=
  ⟨C4_nested_property_resolution.2.2.1 tsExportTree "absent" ["preset"] (by decide),
   by
    rw [C4_nested_property_resolution.2.2.2.1 tsExportTree tsInnerObj "server" "preset" []
      (by decide)]⟩

/-- Tail form of `addAptPackages` over a cons. -/
theorem addAptPackages_cons (acc : List String) (p : String) (ps : List String) :
    addAptPackages acc (p :: ps) =
      addAptPackages (if p ∈ acc then acc else acc ++ [p]) ps := rfl

/-- The de-duplicating append only ever extends its accumulator. -/
theorem addAptPackages_pre (pkgs : List String) :
    ∀ acc : List String, acc <+: addAptPackages acc pkgs := by
  induction pkgs with
  | nil => intro acc; exact List.prefix_rfl
  | cons p ps ih =>
    intro acc
    rw [addAptPackages_cons]
    refine List.IsPrefix.trans ?_ (ih _)
    split
    · exact List.prefix_rfl
    · exact List.prefix_append acc [p]

/-- The de-duplicating append preserves `Nodup`. -/
theorem addAptPackages_nodup (pkgs : List String) :
    ∀ acc : List String, acc.Nodup → (addAptPackages acc pkgs).Nodup := by
  induction pkgs with
  | nil => intro acc h; exact h
  | cons p ps ih =>
    intro acc h
    rw [addAptPackages_cons]
    refine ih _ ?_
    split
    · exact h
    · rename_i hp
      exact List.nodup_append.2 ⟨h, List.nodup_singleton p, by simpa using hp⟩

/-- Membership after the de-duplicating append. -/
theorem addAptPackages_mem (pkgs : List String) :
    ∀ (acc : List String) (x : String),
      x ∈ addAptPackages acc pkgs ↔ x ∈ acc ∨ x ∈ pkgs := by
  induction pkgs with
  | nil => intro acc x; simp [addAptPackages]
  | cons p ps ih =>
    intro acc x
    rw [addAptPackages_cons, ih]
    by_cases hp : p ∈ acc
    · simp only [if_pos hp, List.mem_cons]
      constructor
      · rintro (hx | hx)
        · exact Or.inl hx
        · exact Or.inr (Or.inr hx)
      · rintro (hx | hx | hx)
        · exact Or.inl hx
        · exact Or.inl (hx ▸ hp)
        · exact Or.inr hx
    · simp only [if_neg hp, List.mem_append, List.mem_singleton, List.mem_cons]
      tauto

/-- The catalog fold, started at an arbitrary accumulator. -/
def grapFold (acc : List String) (deps : List NativeDependency) : List String :=
  deps.foldl (fun a dep => addAptPackages a dep.AptPackages) acc

theorem GetRequiredAptPackages_eq_grapFold (deps : List NativeDependency) :
    GetRequiredAptPackages deps = grapFold [] deps := rfl

theorem grapFold_cons (acc : List String) (d : NativeDependency)
    (ds : List NativeDependency) :
    grapFold acc (d :: ds) = grapFold (addAptPackages acc d.AptPackages) ds := rfl

/-- The catalog fold only ever extends its accumulator. -/
theorem grapFold_pre (ds : List NativeDependency) :
    ∀ acc : List String, acc <+: grapFold acc ds := by
  induction ds with
  | nil => intro acc; exact List.prefix_rfl
  | cons d ds ih =>
    intro acc
    rw [grapFold_cons]
    exact List.IsPrefix.trans (addAptPackages_pre _ _) (ih _)

/-- The catalog fold preserves `Nodup`. -/
theorem grapFold_nodup (ds : List NativeDependency) :
    ∀ acc : List String, acc.Nodup → (grapFold acc ds).Nodup := by
  induction ds with
  | nil => intro acc h; exact h
  | cons d ds ih =>
    intro acc h
    rw [grapFold_cons]
    exact ih _ (addAptPackages_nodup _ _ h)

/-- Membership in the catalog fold. -/
theorem grapFold_mem (ds : List NativeDependency) :
    ∀ (acc : List String) (x : String),
      x ∈ grapFold acc ds ↔ x ∈ acc ∨ ∃ d ∈ ds, x ∈ d.AptPackages := by
  induction ds with
  | nil => intro acc x; simp [grapFold]
  | cons d ds ih =>
    intro acc x
    rw [grapFold_cons, ih, addAptPackages_mem]
    simp only [List.mem_cons]
    constructor
    · rintro ((hx | hx) | ⟨e, he, hxe⟩)
      · exact Or.inl hx
      · exact Or.inr ⟨d, Or.inl rfl, hx⟩
      · exact Or.inr ⟨e, Or.inr he, hxe⟩
    · rintro (hx | ⟨e, he | he, hxe⟩)
      · exact Or.inl (Or.inl hx)
      · exact Or.inl (Or.inr (he ▸ hxe))
      · exact Or.inr ⟨e, he, hxe⟩

/-- C5: Native dependency mapping is a pure function of the static
catalog and the manifest's dependency set; the flattened OS-package
list is duplicate-free and preserves first-seen catalog order.  For
any manifest depending on `sharp` the list starts with `libvips-dev`;
any catalog entry whose package is a declared dependency contributes
all of its OS packages; and for the manifest depending on exactly
`sharp` and `puppeteer` the result is `libvips-dev` followed by the
puppeteer set, each item exactly once (combined with `Nodup`, every
listed item appears exactly once). -/
theorem C5_native_dependency_mapping :
    (∀ deps : List NativeDependency, (GetRequiredAptPackages deps).Nodup) ∧
    (∀ pkg : PackageJSON, pkg.HasDependency "sharp" = true →
      (GetRequiredAptPackages (DetectNativeDependencies pkg)).head? = some "libvips-dev") ∧
    (∀ (pkg : PackageJSON) (d : NativeDependency), d ∈ NativeDependencies →
      pkg.HasDependency d.Package = true →
      ∀ p ∈ d.AptPackages, p ∈ GetRequiredAptPackages (DetectNativeDependencies pkg)) ∧
    GetRequiredAptPackages
      (DetectNativeDependencies
        { Dependencies := [("sharp", "^0.33.0"), ("puppeteer", "^21.0.0")] }) =
      ["libvips-dev", "chromium", "libnss3", "libatk1.0-0", "libatk-bridge2.0-0",
       "libcups2", "libdrm2", "libxkbcommon0", "libxcomposite1", "libxdamage1",
       "libxfixes3", "libxrandr2", "libgbm1", "libasound2", "libpango-1.0-0",
       "libcairo2"] := by
  refine ⟨?_, ?_, ?_, by decide⟩
  · intro deps
    rw [GetRequiredAptPackages_eq_grapFold]
    exact grapFold_nodup deps [] List.nodup_nil
  · intro pkg h
    have hfil : DetectNativeDependencies pkg =
        ⟨"sharp", ["libvips-dev"], "Image processing library"⟩ ::
          (NativeDependencies.tail.filter (fun dep => pkg.HasDependency dep.Package)) := by
      unfold DetectNativeDependencies NativeDependencies
      rw [List.filter_cons]
      simp [h]
    rw [hfil, GetRequiredAptPackages_eq_grapFold, grapFold_cons]
    have hstart : addAptPackages []
        (NativeDependency.AptPackages ⟨"sharp", ["libvips-dev"], "Image processing library"⟩) =
        ["libvips-dev"] := by decide
    rw [hstart]
    obtain ⟨t, ht⟩ := grapFold_pre
      (NativeDependencies.tail.filter (fun dep => pkg.HasDependency dep.Package))
      ["libvips-dev"]
    rw [← ht]
    rfl
  · intro pkg d hd hdep p hp
    rw [GetRequiredAptPackages_eq_grapFold]
    refine (grapFold_mem _ _ _).2 (Or.inr ⟨d, ?_, hp⟩)
    exact List.mem_filter.2 ⟨hd, hdep⟩

/-- Witness for C5 at the concrete sharp+puppeteer manifest. -/
theorem C5_native_dependency_mapping_witness :
    (GetRequiredAptPackages
      (DetectNativeDependencies
        { Dependencies := [("sharp", "^0.33.0"), ("puppeteer", "^21.0.0")] })).head? =
      some "libvips-dev" ∧
    "chromium" ∈ GetRequiredAptPackages
      (DetectNativeDependencies
        { Dependencies := [("sharp", "^0.33.0"), ("puppeteer", "^21.0.0")] }) :=
  ⟨C5_native_dependency_mapping.2.1
      { Dependencies := [("sharp", "^0.33.0"), ("puppeteer", "^21.0.0")] } (by decide),
   C5_native_dependency_mapping.2.2.1
      { Dependencies := [("sharp", "^0.33.0"), ("puppeteer", "^21.0.0")] }
      ⟨"puppeteer",
        ["chromium", "libnss3", "libatk1.0-0", "libatk-bridge2.0-0", "libcups2", "libdrm2",
         "libxkbcommon0", "libxcomposite1", "libxdamage1", "libxfixes3", "libxrandr2",
         "libgbm1", "libasound2", "libpango-1.0-0", "libcairo2"],
        "Headless Chrome automation"⟩
      (by decide) (by decide) "chromium" (by decide)⟩

/-- `omitempty` on a string collapses to the zero value and back. -/
theorem omitEmptyStr_getD (s : String) : (omitEmptyStr s).getD "" = s := by
  unfold omitEmptyStr
  split
  · rename_i h; exact h.symm
  · rfl

/-- `omitempty` on a slice/map collapses to the zero value and back. -/
theorem omitEmptyList_getD {α : Type} (l : List α) : (omitEmptyList l).getD [] = l := by
  unfold omitEmptyList
  split
  · rename_i h; exact (List.isEmpty_iff.1 h).symm
  · rfl

/-- C6 counterexample: the wire format cannot reproduce the
absent-vs-empty-string distinction.  The two wire objects below differ
exactly in that one carries an explicit `"framework": ""` while the
other omits the key; parsing maps both to the same `Plan`, and
re-serialising that plan drops the explicit empty field — the
distinction is destroyed by a round trip, because every optional field
is serialised with `omitempty`. -/
theorem C6_absent_vs_empty_collapses :
    (let wAbsent : PlanWire := marshalPlan { Provider := "node", Language := "nodejs" }
     let wEmpty : PlanWire := { wAbsent with framework := some "" }
     wEmpty ≠ wAbsent ∧
       unmarshalPlan wEmpty = unmarshalPlan wAbsent ∧
       marshalPlan (unmarshalPlan wEmpty) = wAbsent) := by
  refine ⟨by decide, by decide, by decide⟩

/-- C6 amended: the `Plan` → wire → `Plan` round trip is the identity
on every field — but only because Go's `Plan` represents an absent
optional field and an empty one identically: all optional fields carry
`omitempty`, so an empty value serialises as an absent key and an
absent key parses back to the empty value.  The wire format offers no
absent-vs-empty distinction to reproduce (see the counterexample). -/
theorem C6_roundtrip_identity (p : Plan) : unmarshalPlan (marshalPlan p) = p := by
  cases p
  simp [marshalPlan, unmarshalPlan, omitEmptyStr_getD, omitEmptyList_getD]

/-- Witness for C6 amended at a populated concrete plan. -/
theorem C6_roundtrip_identity_witness :
    unmarshalPlan
        (marshalPlan
          { Provider := "node", Language := "bun", LanguageVersion := "1.1.0",
            Framework := "nextjs", StartCommand := "bun run start",
            DetectedFiles := ["package.json", "bun.lockb"],
            Metadata := [("output_type", .s "server"), ("has_cypress", .b true)] }) =
      { Provider := "node", Language := "bun", LanguageVersion := "1.1.0",
        Framework := "nextjs", StartCommand := "bun run start",
        DetectedFiles := ["package.json", "bun.lockb"],
        Metadata := [("output_type", .s "server"), ("has_cypress", .b true)] } :=
  C6_roundtrip_identity _

/-- A `HasFile` answer of `false` is exactly a failed `ReadFile`. -/
theorem readFile_none_of_hasFile_false (ctx : Context) (name : String)
    (h : ctx.HasFile name = false) : ctx.ReadFile name = none := by
  unfold Context.HasFile at h
  cases he : ctx.ReadFile name with
  | none => rfl
  | some v => rw [he] at h; simp at h

/-- Tree-sitter output for the TypeScript source
`export default { output: "export" }` (a static-export
`next.config.ts`). -/
def nextStaticTree : STNode :=
  .mk "program" "export default \x7b output: \"export\" \x7d"
    (.cons none
      (.mk "export_statement" "export default \x7b output: \"export\" \x7d"
        (.cons none (.mk "export" "export" .nil)
          (.cons none (.mk "default" "default" .nil)
            (.cons (some "value")
              (.mk "object" "\x7b output: \"export\" \x7d"
                (.cons none (.mk "\x7b" "\x7b" .nil)
                  (.cons none
                    (.mk "pair" "output: \"export\""
                      (.cons (some "key") (.mk "property_identifier" "output" .nil)
                        (.cons none (.mk ":" ":" .nil)
                          (.cons (some "value") (.mk "string" "\"export\"" .nil) .nil))))
                    (.cons none (.mk "\x7d" "\x7d" .nil) .nil))))
              .nil))))
      .nil)

/-- Tree-sitter output for the TypeScript source
`export default { reactStrictMode: true }` (a `next.config.ts` with no
`output` property). -/
def nextPlainTree : STNode :=
  .mk "program" "export default \x7b reactStrictMode: true \x7d"
    (.cons none
      (.mk "export_statement" "export default \x7b reactStrictMode: true \x7d"
        (.cons none (.mk "export" "export" .nil)
          (.cons none (.mk "default" "default" .nil)
            (.cons (some "value")
              (.mk "object" "\x7b reactStrictMode: true \x7d"
                (.cons none (.mk "\x7b" "\x7b" .nil)
                  (.cons none
                    (.mk "pair" "reactStrictMode: true"
                      (.cons (some "key")
                        (.mk "property_identifier" "reactStrictMode" .nil)
                        (.cons none (.mk ":" ":" .nil)
                          (.cons (some "value") (.mk "true" "true" .nil) .nil))))
                    (.cons none (.mk "\x7d" "\x7d" .nil) .nil))))
              .nil))))
      .nil)

/-- C7: Framework classification is deterministic and idempotent over
identical input (it is a pure function of the evidence, manifest and
parse results), and for every manifest depending on `next`: when
`next.config.ts` parses to a tree whose `output` property resolves to
`"export"`, the classifier answers nextjs/static; when the config's
`output` property does not resolve to `"export"` (and no JS config
shadows it), it answers nextjs/server. -/
theorem C7_framework_classification :
    (∀ (pTS pJS : String → Option STNode) (ctx : Context) (pkg : PackageJSON),
      DetectFramework pTS pJS ctx pkg = DetectFramework pTS pJS ctx pkg) ∧
    (∀ (pTS pJS : String → Option STNode) (ctx : Context) (pkg : PackageJSON)
        (src : String) (tree : STNode),
      pkg.HasDependency "next" = true →
      ctx.ReadFile "next.config.ts" = some src →
      pTS src = some tree →
      FindPropertyValue tree "output" = "export" →
      DetectFramework pTS pJS ctx pkg =
        ⟨FrameworkNextJS, cleanVersion (pkg.GetDependencyVersion "next"),
          OutputTypeStatic⟩) ∧
    (∀ (pTS pJS : String → Option STNode) (ctx : Context) (pkg : PackageJSON)
        (src : String) (tree : STNode),
      pkg.HasDependency "next" = true →
      ctx.ReadFile "next.config.ts" = some src →
      pTS src = some tree →
      FindPropertyValue tree "output" ≠ "export" →
      ctx.HasFile "next.config.mjs" = false →
      ctx.HasFile "next.config.js" = false →
      DetectFramework pTS pJS ctx pkg =
        ⟨FrameworkNextJS, cleanVersion (pkg.GetDependencyVersion "next"),
          OutputTypeServer⟩) := by
  refine ⟨fun _ _ _ _ => rfl, ?_, ?_⟩
  · intro pTS pJS ctx pkg src tree h1 h2 h3 h4
    have hstatic : isNextJSStaticExport pTS pJS ctx = true := by
      simp [isNextJSStaticExport, tsConfigCheck, h2, h3, h4]
    simp [DetectFramework, h1, hstatic]
  · intro pTS pJS ctx pkg src tree h1 h2 h3 h4 h5 h6
    have hstatic : isNextJSStaticExport pTS pJS ctx = false := by
      simp [isNextJSStaticExport, tsConfigCheck, jsConfigCheck, h2, h3, h4,
        readFile_none_of_hasFile_false ctx _ h5,
        readFile_none_of_hasFile_false ctx _ h6]
    simp [DetectFramework, h1, hstatic]

/-- Witness for C7: a `next` project whose `next.config.ts` parses to
the static-export tree is classified nextjs/static; the same manifest
with the no-`output` config is classified nextjs/server. -/
theorem C7_framework_classification_witness :
    DetectFramework (fun _ => some nextStaticTree) (fun _ => none)
        ⟨[("package.json", ""), ("next.config.ts", "export default \x7b output: \"export\" \x7d")],
          []⟩
        { Dependencies := [("next", "^14.0.0")] } =
      ⟨FrameworkNextJS, "14.0.0", OutputTypeStatic⟩ ∧
    DetectFramework (fun _ => some nextPlainTree) (fun _ => none)
        ⟨[("package.json", ""),
          ("next.config.ts", "export default \x7b reactStrictMode: true \x7d")], []⟩
        { Dependencies := [("next", "^14.0.0")] } =
      ⟨FrameworkNextJS, "14.0.0", OutputTypeServer⟩ := by
  constructor
  · have := C7_framework_classification.2.1 (fun _ => some nextStaticTree) (fun _ => none)
      ⟨[("package.json", ""), ("next.config.ts", "export default \x7b output: \"export\" \x7d")], []⟩
      { Dependencies := [("next", "^14.0.0")] }
      "export default \x7b output: \"export\" \x7d" nextStaticTree
      (by decide) (by decide) rfl (by decide)
    rw [this]
    decide
  · have := C7_framework_classification.2.2 (fun _ => some nextPlainTree) (fun _ => none)
      ⟨[("package.json", ""),
        ("next.config.ts", "export default \x7b reactStrictMode: true \x7d")], []⟩
      { Dependencies := [("next", "^14.0.0")] }
      "export default \x7b reactStrictMode: true \x7d" nextPlainTree
      (by decide) (by decide) rfl (by decide) (by decide) (by decide)
    rw [this]
    decide

/-- C8: The orchestrator walks providers in registration order and
returns the first detecting provider's plan; a detect error never
aborts the run — that provider is skipped and iteration continues;
and when no provider detects anything the result is `.ok none`
("no plan"), not an error — in particular for the registered provider
list on a directory without a `package.json`. -/
theorem C8_orchestrator_first_match :
    (∀ ctx : Context, detectorDetect [] ctx = .ok none) ∧
    (∀ (p : ProviderIface) (ps : List ProviderIface) (ctx : Context) (e : String),
      p.detect ctx = .error e →
      detectorDetect (p :: ps) ctx = detectorDetect ps ctx) ∧
    (∀ (p : ProviderIface) (ps : List ProviderIface) (ctx : Context),
      p.detect ctx = .ok true →
      detectorDetect (p :: ps) ctx = (p.plan ctx).map some) ∧
    (∀ (p : ProviderIface) (ps : List ProviderIface) (ctx : Context),
      p.detect ctx = .ok false →
      detectorDetect (p :: ps) ctx = detectorDetect ps ctx) ∧
    (∀ (parsePkg : String → Option PackageJSON) (pTS pJS : String → Option STNode)
        (ctx : Context),
      ctx.HasFile "package.json" = false →
      detectorDetect (registeredProviders parsePkg pTS pJS) ctx = .ok none) := by
  refine ⟨fun _ => rfl, ?_, ?_, ?_, ?_⟩
  · intro p ps ctx e h
    simp [detectorDetect, h]
  · intro p ps ctx h
    simp [detectorDetect, h]
  · intro p ps ctx h
    simp [detectorDetect, h]
  · intro parsePkg pTS pJS ctx h
    simp [registeredProviders, detectorDetect, nodeProvider, h]

/-- Witness for C8: an erroring provider is skipped in favour of a
later detecting one, and the registered detector on an empty
directory yields no plan and no error. -/
theorem C8_orchestrator_first_match_witness :
    detectorDetect
        [⟨"bad", fun _ => .error "boom", fun _ => .error "unreachable"⟩,
         ⟨"good", fun _ => .ok true, fun _ => .ok { Provider := "good", Language := "x" }⟩]
        ⟨[], []⟩ =
      .ok (some { Provider := "good", Language := "x" }) ∧
    detectorDetect
        (registeredProviders (fun _ => none) (fun _ => none) (fun _ => none))
        ⟨[("README.md", "hi")], []⟩ =
      .ok none := by
  constructor
  · rw [C8_orchestrator_first_match.2.1 _ _ _ "boom" rfl,
      C8_orchestrator_first_match.2.2.1 _ _ _ rfl]
    rfl
  · exact C8_orchestrator_first_match.2.2.2.2 (fun _ => none) (fun _ => none) (fun _ => none)
      ⟨[("README.md", "hi")], []⟩ (by decide)

/-- C9 counterexample: with no `start`/`serve` script and no framework
default, a manifest whose `main` is *not* one of the fixed candidate
entry points still gets a start command — `node src/cli.js` — whereas
the claim's probe ("the first candidate declared as the manifest's
main field or present as a default entry point wins; if none match,
empty") finds no matching candidate and answers empty. -/
theorem C9_counterexample_main_wins_unconditionally :
    determineStartCommand { Main := "src/cli.js" } ⟨"npm", ""⟩
        ⟨FrameworkNone, "", OutputTypeNone⟩ = "node src/cli.js" ∧
    specStartCommand { Main := "src/cli.js" } ⟨"npm", ""⟩
        ⟨FrameworkNone, "", OutputTypeNone⟩ = "" ∧
    determineStartCommand { Main := "src/cli.js" } ⟨"npm", ""⟩
        ⟨FrameworkNone, "", OutputTypeNone⟩ ≠
      specStartCommand { Main := "src/cli.js" } ⟨"npm", ""⟩
        ⟨FrameworkNone, "", OutputTypeNone⟩ := by
  refine ⟨by decide, by decide, by decide⟩

/-- C9 amended: start-command synthesis follows the precedence
`scripts.start` > `scripts.serve` > framework default > a non-empty
`main` field (which wins unconditionally as `node <main>`, whether or
not it is among the fixed candidates) > the candidate entry-point
probe — which compares each candidate only against `main`, by then
empty, so it never fires — > the empty command, which is a valid
result, not an error. -/
theorem C9_start_command_precedence :
    (∀ (pkg : PackageJSON) (pm : PackageManagerInfo) (fw : FrameworkInfo),
      pkg.HasScript "start" = true →
      determineStartCommand pkg pm fw = pm.GetRunCommand ++ " start") ∧
    (∀ (pkg : PackageJSON) (pm : PackageManagerInfo) (fw : FrameworkInfo),
      pkg.HasScript "start" = false → pkg.HasScript "serve" = true →
      determineStartCommand pkg pm fw = pm.GetRunCommand ++ " serve") ∧
    (∀ (pkg : PackageJSON) (pm : PackageManagerInfo) (fw : FrameworkInfo),
      pkg.HasScript "start" = false → pkg.HasScript "serve" = false →
      fw.GetDefaultStartCommand pm ≠ "" →
      determineStartCommand pkg pm fw = fw.GetDefaultStartCommand pm) ∧
    (∀ (pkg : PackageJSON) (pm : PackageManagerInfo) (fw : FrameworkInfo),
      pkg.HasScript "start" = false → pkg.HasScript "serve" = false →
      fw.GetDefaultStartCommand pm = "" → pkg.Main ≠ "" →
      determineStartCommand pkg pm fw = "node " ++ pkg.Main) ∧
    (∀ (pkg : PackageJSON) (pm : PackageManagerInfo) (fw : FrameworkInfo),
      pkg.HasScript "start" = false → pkg.HasScript "serve" = false →
      fw.GetDefaultStartCommand pm = "" → pkg.Main = "" →
      determineStartCommand pkg pm fw = "") := by
  refine ⟨?_, ?_, ?_, ?_, ?_⟩
  · intro pkg pm fw h
    simp [determineStartCommand, h]
  · intro pkg pm fw h1 h2
    simp [determineStartCommand, h1, h2]
  · intro pkg pm fw h1 h2 h3
    simp [determineStartCommand, h1, h2, h3]
  · intro pkg pm fw h1 h2 h3 h4
    simp [determineStartCommand, h1, h2, h3, h4]
  · intro pkg pm fw h1 h2 h3 h4
    simp [determineStartCommand, h1, h2, h3, h4, entryPoints, hasEntryPoint]

/-- Witness for C9 amended: all five precedence levels at concrete
manifests. -/
theorem C9_start_command_precedence_witness :
    determineStartCommand { Scripts := [("start", "node server.js")] } ⟨"npm", ""⟩
        ⟨FrameworkNone, "", OutputTypeNone⟩ = "npm run start" ∧
    determineStartCommand { Scripts := [("serve", "vite preview")] } ⟨"npm", ""⟩
        ⟨FrameworkNone, "", OutputTypeNone⟩ = "npm run serve" ∧
    determineStartCommand {} ⟨"npm", ""⟩ ⟨FrameworkNextJS, "14.0.0", OutputTypeServer⟩ =
      "npm run start" ∧
    determineStartCommand { Main := "server.js" } ⟨"npm", ""⟩
        ⟨FrameworkNone, "", OutputTypeNone⟩ = "node server.js" ∧
    determineStartCommand {} ⟨"npm", ""⟩ ⟨FrameworkNone, "", OutputTypeNone⟩ = "" := by
  refine ⟨C9_start_command_precedence.1 _ _ _ (by decide),
    C9_start_command_precedence.2.1 _ _ _ (by decide) (by decide),
    ?_,
    C9_start_command_precedence.2.2.2.1 _ _ _ (by decide) (by decide) (by decide) (by decide),
    C9_start_command_precedence.2.2.2.2 _ _ _ (by decide) (by decide) (by decide) (by decide)⟩
  have := C9_start_command_precedence.2.2.1 {} ⟨"npm", ""⟩
    ⟨FrameworkNextJS, "14.0.0", OutputTypeServer⟩ (by decide) (by decide) (by decide)
  rw [this]
  decide

/-- C10: For every project whose detected package manager is bun, the
node provider's plan sets `Language` to `"bun"` and `LanguageVersion`
to the package-manager version — or `"latest"` when that version is
empty — discarding the Node runtime resolver's result; for every other
package manager the plan carries `"nodejs"` and the resolved Node
version. -/
theorem C10_bun_language_switch
    (parsePkg : String → Option PackageJSON) (pTS pJS : String → Option STNode)
    (ctx : Context) (data : String) (pkg : PackageJSON)
    (hread : ctx.ReadFile "package.json" = some data)
    (hparse : parsePkg data = some pkg) :
    ∃ plan : Plan,
      nodePlan parsePkg pTS pJS ctx = .ok plan ∧
      plan.Language =
        (if (DetectPackageManager ctx pkg).Name = PackageManagerBun then "bun"
          else "nodejs") ∧
      plan.LanguageVersion =
        (if (DetectPackageManager ctx pkg).Name = PackageManagerBun then
          (if (DetectPackageManager ctx pkg).Version ≠ "" then
            (DetectPackageManager ctx pkg).Version
          else "latest")
        else DetectNodeVersion ctx (some pkg)) := by
  unfold nodePlan
  rw [hread]
  simp only [hparse]
  exact ⟨_, rfl, rfl, rfl⟩

/-- Witness for C10: a bun project (detected through `bun.lockb`,
empty package-manager version) gets `Language = "bun"` and
`LanguageVersion = "latest"`; an npm project gets `"nodejs"` with the
resolved default Node version. -/
theorem C10_bun_language_switch_witness :
    (∃ plan : Plan,
      nodePlan (fun _ => some {}) (fun _ => none) (fun _ => none)
          ⟨[("package.json", "\x7b\x7d"), ("bun.lockb", "")], []⟩ = .ok plan ∧
      plan.Language = "bun" ∧ plan.LanguageVersion = "latest") ∧
    (∃ plan : Plan,
      nodePlan (fun _ => some {}) (fun _ => none) (fun _ => none)
          ⟨[("package.json", "\x7b\x7d")], []⟩ = .ok plan ∧
      plan.Language = "nodejs" ∧ plan.LanguageVersion = DefaultNodeVersion) := by
  constructor
  · obtain ⟨plan, h1, h2, h3⟩ := C10_bun_language_switch (fun _ => some {})
      (fun _ => none) (fun _ => none) ⟨[("package.json", "\x7b\x7d"), ("bun.lockb", "")], []⟩
      "\x7b\x7d" {} rfl rfl
    refine ⟨plan, h1, ?_, ?_⟩
    · rw [h2]; decide
    · rw [h3]; decide
  · obtain ⟨plan, h1, h2, h3⟩ := C10_bun_language_switch (fun _ => some {})
      (fun _ => none) (fun _ => none) ⟨[("package.json", "\x7b\x7d")], []⟩
      "\x7b\x7d" {} rfl rfl
    refine ⟨plan, h1, ?_, ?_⟩
    · rw [h2]; decide
    · rw [h3]; decide
